import Mathlib

/-!
Verification of the Notion-Visualizer aggregation and layout pipeline
(src/generate_heatmap.py and src/generate_wordcloud.py).

Modelling conventions for the shallow embedding:
* A Python `datetime.date` is represented by its proleptic-Gregorian
  ordinal (`date.toordinal()`), an `Int`.  Ordinal 1 is 0001-01-01,
  which is a Monday, so Python `date.weekday()` (Monday = 0) is
  `(ordinal - 1) mod 7`.
* Python float values flowing through the pipeline are represented by
  `ℚ` (every numeric payload the source reads is a finite JSON number).
* Python `//` and `%` on integers are floor division and floor modulus;
  they are embedded as `Int.fdiv` and `%` (`Int.emod`), which agree with
  Python for the positive divisors used here.
* Python strings holding tags are manipulated at the character-list
  level (`String.data`), with the character operations the source uses
  (single-character replace, split on a comma, strip) defined
  structurally below.
-/

/-! ## Color Tier Classifier (generate_heatmap.py, get_color) -/

/-- The palette list `COLORS` from generate_heatmap.py line 212:
index 0 is the zero/gray color, 1..4 the activity browns. -/
def COLORS : List String := ["#ebedf0", "#D9BAAB", "#C69781", "#B37557", "#A0522D"]

/-- Embedding of `get_color` (generate_heatmap.py lines 213-218): the
cascade of threshold tests returning an entry of `COLORS`. -/
def get_color (value : ℚ) : String :=
  if value = 0 then COLORS.getD 0 ""
  else if value < 120 then COLORS.getD 1 ""
  else if value < 240 then COLORS.getD 2 ""
  else if value < 480 then COLORS.getD 3 ""
  else COLORS.getD 4 ""

/-- The ordinal color tier selected by `get_color`: the index into
`COLORS` that the threshold cascade picks. -/
def colorTier (value : ℚ) : ℕ :=
  if value = 0 then 0
  else if value < 120 then 1
  else if value < 240 then 2
  else if value < 480 then 3
  else 4

/-- C2: the Color Tier Classifier maps 0 to tier 0; a nonzero value
below 120 to tier 1, values in [120,240) to tier 2, values in [240,480)
to tier 3, and values at or above 480 to tier 4 (so on nonzero
non-negative input the tier is the smallest k with v < t_k, and 4 once
v ≥ t3).  It is total with range contained in 0..4, monotone
non-decreasing on non-negative values, classifies t_k - ε into tier k
and t_k into tier k+1, and `get_color` returns exactly the palette
entry at the computed tier. -/
theorem color_tier_classifier_spec :
    (∀ v : ℚ, colorTier v = 0 ↔ v = 0)
  ∧ (∀ v : ℚ, 0 < v → v < 120 → colorTier v = 1)
  ∧ (∀ v : ℚ, 120 ≤ v → v < 240 → colorTier v = 2)
  ∧ (∀ v : ℚ, 240 ≤ v → v < 480 → colorTier v = 3)
  ∧ (∀ v : ℚ, 480 ≤ v → colorTier v = 4)
  ∧ (∀ v : ℚ, colorTier v ≤ 4)
  ∧ (∀ v w : ℚ, 0 ≤ v → v ≤ w → colorTier v ≤ colorTier w)
  ∧ (∀ ε : ℚ, 0 < ε → ε < 120 →
       colorTier (120 - ε) = 1 ∧ colorTier (240 - ε) = 2 ∧ colorTier (480 - ε) = 3)
  ∧ (colorTier 120 = 2 ∧ colorTier 240 = 3 ∧ colorTier 480 = 4)
  ∧ (∀ v : ℚ, get_color v = COLORS.getD (colorTier v) "") := by
  refine ⟨?_, ?_, ?_, ?_, ?_, ?_, ?_, ?_, ?_, ?_⟩
  · intro v
    unfold colorTier
    split_ifs <;> simp_all
  · intro v h0 h120
    unfold colorTier
    split_ifs <;> first | rfl | linarith
  · intro v h120 h240
    unfold colorTier
    split_ifs <;> first | rfl | linarith
  · intro v h240 h480
    unfold colorTier
    split_ifs <;> first | rfl | linarith
  · intro v h480
    unfold colorTier
    split_ifs <;> first | rfl | linarith
  · intro v
    unfold colorTier
    split_ifs <;> omega
  · intro v w hv hvw
    rcases eq_or_lt_of_le hv with h0 | h0
    · have : v = 0 := h0.symm
      subst this
      simp only [colorTier, if_pos rfl]
      exact Nat.zero_le _
    · unfold colorTier
      split_ifs <;> first | omega | linarith
  · intro ε hε hε120
    unfold colorTier
    refine ⟨?_, ?_, ?_⟩ <;> (split_ifs <;> first | rfl | linarith)
  · unfold colorTier
    norm_num
  · intro v
    unfold get_color colorTier
    split_ifs <;> rfl

/-- C2 witness: the classifier evaluated at concrete inputs through the
theorem, discharging the hypotheses there. -/
theorem color_tier_classifier_spec_witness :
    colorTier 60 = 1 ∧ colorTier 150 = 2 ∧ colorTier 300 = 3 ∧ colorTier 500 = 4 := by
  obtain ⟨h0, h1, h2, h3, h4, _, _, _, _, _⟩ := color_tier_classifier_spec
  exact ⟨h1 60 (by norm_num) (by norm_num), h2 150 (by norm_num) (by norm_num),
         h3 300 (by norm_num) (by norm_num), h4 500 (by norm_num)⟩

/-! ## Grid Layout Calculator (generate_heatmap.py, get_week_num) -/

/-- Python `date.weekday()` on an ordinal: Monday = 0 .. Sunday = 6.
Ordinal 1 (0001-01-01) is a Monday. -/
def pyWeekday (d : Int) : Int := (d - 1) % 7

/-- Embedding of `get_week_num` (generate_heatmap.py lines 224-230):
`delta = (d - start_date).days`, then floor-divide
`delta + start_date.weekday()` by 7 (Python `//` is floor division). -/
def get_week_num (start_date d : Int) : Int :=
  Int.fdiv ((d - start_date) + pyWeekday start_date) 7

/-- Embedding of `total_weeks = get_week_num(end_date) + 1`
(generate_heatmap.py line 232). -/
def total_weeks (start_date end_date : Int) : Int :=
  get_week_num start_date end_date + 1

theorem pyWeekday_nonneg (d : Int) : 0 ≤ pyWeekday d :=
  Int.emod_nonneg _ (by norm_num)

theorem pyWeekday_lt (d : Int) : pyWeekday d < 7 :=
  Int.emod_lt_of_pos _ (by norm_num)

theorem get_week_num_eq_ediv (start_date d : Int) :
    get_week_num start_date d = ((d - start_date) + pyWeekday start_date) / 7 := by
  unfold get_week_num
  exact Int.fdiv_eq_ediv _ (by norm_num)

/-- C3: for days at or after the window start, the Grid Layout
Calculator computes `week_index(d)` as the floor of
`((d - start_date) + start_date.weekday()) / 7` with the Monday=0
weekday convention; the weekday function has period 7, range 0..6, and
anchors Monday (ordinal 1, 0001-01-01) at 0; `week_index(start_date)`
is 0, `week_index` is monotone non-decreasing in the day, and
`total_weeks = week_index(end_date) + 1`. -/
theorem grid_layout_calculator_spec (start_date : Int) :
    (∀ d : Int, get_week_num start_date d
        = Int.fdiv ((d - start_date) + pyWeekday start_date) 7)
  ∧ get_week_num start_date start_date = 0
  ∧ (∀ d₁ d₂ : Int, start_date ≤ d₁ → d₁ ≤ d₂ →
       get_week_num start_date d₁ ≤ get_week_num start_date d₂)
  ∧ (∀ d : Int, 0 ≤ pyWeekday d ∧ pyWeekday d < 7)
  ∧ (∀ d : Int, pyWeekday (d + 7) = pyWeekday d)
  ∧ pyWeekday 1 = 0
  ∧ (∀ e : Int, total_weeks start_date e = get_week_num start_date e + 1) := by
  refine ⟨fun _ => rfl, ?_, ?_, fun d => ⟨pyWeekday_nonneg d, pyWeekday_lt d⟩, ?_, rfl, fun _ => rfl⟩
  · rw [get_week_num_eq_ediv start_date start_date]
    have h1 := pyWeekday_nonneg start_date
    have h2 := pyWeekday_lt start_date
    rw [sub_self, zero_add]
    exact Int.ediv_eq_zero_of_lt h1 h2
  · intro d₁ d₂ h1 h12
    rw [get_week_num_eq_ediv start_date d₁, get_week_num_eq_ediv start_date d₂]
    exact Int.ediv_le_ediv (by norm_num) (by linarith)
  · intro d
    unfold pyWeekday
    omega

/-- C3 witness: the grid layout properties applied at a concrete window
start (ordinal 739252 = 2025-01-01, a Wednesday) and concrete days. -/
theorem grid_layout_calculator_spec_witness :
    get_week_num 739252 739252 = 0 ∧ get_week_num 739252 739255 ≤ get_week_num 739252 739260 := by
  obtain ⟨_, hzero, hmono, _, _, _, _⟩ := grid_layout_calculator_spec 739252
  exact ⟨hzero, hmono 739255 739260 (by norm_num) (by norm_num)⟩

/-! ## Daily Aggregator (generate_heatmap.py, lines 174-192) -/

/-- Embedding of `pd.date_range(start_date, end_date)` (line 187): the
list of every calendar day ordinal from `start_date` to `end_date`
inclusive, ascending; empty when `end_date < start_date`. -/
def dateRange (start_date end_date : Int) : List Int :=
  (List.range (end_date - start_date + 1).toNat).map (fun i : ℕ => start_date + (i : Int))

/-- Sum of the values of all normalized records falling on day `d`,
as computed by `df.groupby(df.index).sum()` (line 175) for a day that
is present, and 0 for an absent day. -/
def dailySum (records : List (Int × ℚ)) (d : Int) : ℚ :=
  ((records.filter (fun r => r.1 = d)).map (fun r => r.2)).sum

/-- Embedding of `daily_data.reindex(idx, fill_value=0)` (line 192)
composed with the groupby-sum of line 175: for every day of the window,
the grouped sum if some record falls on that day, else the fill value
0. -/
def reindexDaily (records : List (Int × ℚ)) (start_date end_date : Int) : List (Int × ℚ) :=
  (dateRange start_date end_date).map
    (fun d => (d, if d ∈ records.map (fun r => r.1) then dailySum records d else 0))

theorem dailySum_of_not_mem (records : List (Int × ℚ)) (d : Int)
    (h : ∀ r ∈ records, r.1 ≠ d) : dailySum records d = 0 := by
  unfold dailySum
  have : records.filter (fun r => r.1 = d) = [] := by
    rw [List.filter_eq_nil_iff]
    intro r hr
    simpa using h r hr
  rw [this]
  rfl

theorem mem_dateRange (start_date end_date d : Int) :
    d ∈ dateRange start_date end_date ↔ start_date ≤ d ∧ d ≤ end_date := by
  unfold dateRange
  simp only [List.mem_map, List.mem_range]
  constructor
  · rintro ⟨i, hi, rfl⟩
    omega
  · rintro ⟨h1, h2⟩
    exact ⟨(d - start_date).toNat, by omega, by omega⟩

theorem dateRange_pairwise (start_date end_date : Int) :
    (dateRange start_date end_date).Pairwise (· < ·) := by
  rw [dateRange, List.pairwise_map]
  exact (List.pairwise_lt_range _).imp (by intro a b hab; omega)

theorem reindexDaily_fst (records : List (Int × ℚ)) (start_date end_date : Int) :
    (reindexDaily records start_date end_date).map Prod.fst = dateRange start_date end_date := by
  unfold reindexDaily
  rw [List.map_map]
  exact List.map_id _ ▸ List.map_congr_left (fun a _ => rfl)

/-- C1: for every window with `start_date ≤ end_date`, the Daily
Aggregator output has exactly `(end_date - start_date) + 1` entries;
its days are pairwise strictly ascending (hence each day appears at
most once), the days are exactly the calendar days of the window, each
entry value is the sum of the values of the normalized records falling
on that day, and 0 when no record falls on it. -/
theorem daily_aggregator_spec (records : List (Int × ℚ)) (start_date end_date : Int)
    (h : start_date ≤ end_date) :
    (reindexDaily records start_date end_date).length = (end_date - start_date).toNat + 1
  ∧ ((reindexDaily records start_date end_date).map Prod.fst).Pairwise (· < ·)
  ∧ (∀ d : Int, d ∈ (reindexDaily records start_date end_date).map Prod.fst
       ↔ start_date ≤ d ∧ d ≤ end_date)
  ∧ (∀ d v, (d, v) ∈ reindexDaily records start_date end_date →
       v = ((records.filter (fun r => r.1 = d)).map (fun r => r.2)).sum)
  ∧ (∀ d v, (d, v) ∈ reindexDaily records start_date end_date →
       (∀ r ∈ records, r.1 ≠ d) → v = 0) := by
  refine ⟨?_, ?_, ?_, ?_, ?_⟩
  · unfold reindexDaily dateRange
    simp only [List.length_map, List.length_range]
    omega
  · rw [reindexDaily_fst]
    exact dateRange_pairwise start_date end_date
  · intro d
    rw [reindexDaily_fst]
    exact mem_dateRange start_date end_date d
  · intro d v hdv
    unfold reindexDaily at hdv
    rcases List.mem_map.mp hdv with ⟨d', _, heq⟩
    have hd : d' = d := congrArg Prod.fst heq
    subst hd
    have hv : (if d' ∈ records.map (fun r => r.1) then dailySum records d' else 0) = v :=
      congrArg Prod.snd heq
    by_cases hmem : d' ∈ records.map (fun r => r.1)
    · rw [if_pos hmem] at hv
      exact hv.symm
    · rw [if_neg hmem] at hv
      rw [← hv]
      have : dailySum records d' = 0 := by
        apply dailySum_of_not_mem
        intro r hr hrd
        exact hmem (List.mem_map.mpr ⟨r, hr, hrd⟩)
      unfold dailySum at this
      exact this.symm
  · intro d v hdv habsent
    unfold reindexDaily at hdv
    rcases List.mem_map.mp hdv with ⟨d', _, heq⟩
    have hd : d' = d := congrArg Prod.fst heq
    subst hd
    have hv : (if d' ∈ records.map (fun r => r.1) then dailySum records d' else 0) = v :=
      congrArg Prod.snd heq
    by_cases hmem : d' ∈ records.map (fun r => r.1)
    · rw [if_pos hmem] at hv
      rw [← hv]
      exact dailySum_of_not_mem records d' habsent
    · rw [if_neg hmem] at hv
      exact hv.symm

/-- C1 witness: the aggregator invariants applied to a concrete record
list and a concrete three-day window. -/
theorem daily_aggregator_spec_witness :
    (reindexDaily [(10, 5), (10, 7), (12, 1)] 10 12).length = 3
  ∧ (reindexDaily [(10, 5), (10, 7), (12, 1)] 10 12 = [(10, 12), (11, 0), (12, 1)]) := by
  have h := daily_aggregator_spec [(10, 5), (10, 7), (12, 1)] 10 12 (by norm_num)
  refine ⟨h.1, ?_⟩
  norm_num [reindexDaily, dateRange, dailySum, show Int.toNat 3 = 3 from rfl, List.range_succ]

/-! ## Calendar arithmetic (embedding of the datetime library facts the
source relies on): conversion between a Gregorian date and its Python
ordinal, and extraction of the month from an ordinal. -/

/-- Ordinal (`date(y, m, d).toordinal()`) of a proleptic-Gregorian
calendar date, via the standard civil-calendar conversion. -/
def daysFromCivil (y m d : Int) : Int :=
  let y' := if m ≤ 2 then y - 1 else y
  let era := Int.fdiv y' 400
  let yoe := y' - era * 400
  let mp := (m + 9) % 12
  let doy := Int.fdiv (153 * mp + 2) 5 + d - 1
  let doe := yoe * 365 + Int.fdiv yoe 4 - Int.fdiv yoe 100 + doy
  era * 146097 + doe - 305

/-- Month (1..12) of the calendar date with the given Python ordinal
(`date.fromordinal(n).month`), via the standard inverse civil-calendar
conversion. -/
def pyMonth (n : Int) : Int :=
  let z := n + 305
  let era := Int.fdiv z 146097
  let doe := z - era * 146097
  let yoe := Int.fdiv (doe - Int.fdiv doe 1460 + Int.fdiv doe 36524 - Int.fdiv doe 146096) 365
  let doy := doe - (365 * yoe + Int.fdiv yoe 4 - Int.fdiv yoe 100)
  let mp := Int.fdiv (5 * doy + 2) 153
  if mp < 10 then mp + 3 else mp - 9

/-! ## Timezone Normalizer (generate_heatmap.py, lines 148-170) -/

/-- A parsed timestamp as `pd.to_datetime` produces it: the wall-clock
calendar day ordinal and second-of-day as written in the string, plus
the zone offset east of UTC in seconds carried by the string (`none`
for a naive timestamp). -/
structure PyTimestamp where
  day : Int
  sec : Int
  offset : Option Int

/-- The fixed reference zone offset: Asia/Taipei is UTC+8 (no daylight
saving time), generate_heatmap.py line 163. -/
def taipeiOffsetSec : Int := 8 * 3600

/-- Embedding of lines 162-170: a zone-aware timestamp is converted to
Asia/Taipei (`tz_convert`), truncated to local midnight (`normalize`)
and stripped of its zone (`tz_localize(None)`), producing a plain day
ordinal; a naive timestamp is truncated as it stands. -/
def normalizeToDay (t : PyTimestamp) : Int :=
  match t.offset with
  | none => t.day
  | some off => Int.fdiv (t.day * 86400 + t.sec - off + taipeiOffsetSec) 86400

/-- C5: the Timezone Normalizer yields a plain calendar day: a naive
timestamp is truncated as if already in the reference zone (its written
day is kept); a zone-aware timestamp is first converted to UTC+8 wall
time `w = day * 86400 + sec - offset + 8 * 3600` seconds and then
truncated to the local midnight below it (the output day `q` satisfies
`q * 86400 ≤ w < (q + 1) * 86400`); and the concrete timestamp
2025-01-01T20:00:00Z normalizes to the calendar day 2025-01-02. -/
theorem timezone_normalizer_spec :
    (∀ t : PyTimestamp, t.offset = none → normalizeToDay t = t.day)
  ∧ (∀ (t : PyTimestamp) (off : Int), t.offset = some off →
       normalizeToDay t * 86400 ≤ t.day * 86400 + t.sec - off + taipeiOffsetSec
     ∧ t.day * 86400 + t.sec - off + taipeiOffsetSec < (normalizeToDay t + 1) * 86400)
  ∧ normalizeToDay ⟨daysFromCivil 2025 1 1, 20 * 3600, some 0⟩ = daysFromCivil 2025 1 2 := by
  refine ⟨?_, ?_, ?_⟩
  · intro t ht
    unfold normalizeToDay
    rw [ht]
  · intro t off ht
    have hn : normalizeToDay t
        = Int.fdiv (t.day * 86400 + t.sec - off + taipeiOffsetSec) 86400 := by
      unfold normalizeToDay
      rw [ht]
    set w := t.day * 86400 + t.sec - off + taipeiOffsetSec with hw
    rw [hn, Int.fdiv_eq_ediv _ (by norm_num)]
    have hmod1 : 0 ≤ w % 86400 := Int.emod_nonneg w (by norm_num)
    have hmod2 : w % 86400 < 86400 := Int.emod_lt_of_pos w (by norm_num)
    have hdm : 86400 * (w / 86400) + w % 86400 = w := Int.ediv_add_emod w 86400
    constructor
    · linarith
    · linarith
  · decide

/-- C5 witness: the normalizer applied through the theorem to a
concrete aware timestamp and a concrete naive timestamp. -/
theorem timezone_normalizer_spec_witness :
    normalizeToDay ⟨739252, 0, none⟩ = 739252
  ∧ normalizeToDay ⟨739252, 72000, some 0⟩ * 86400 ≤ 739252 * 86400 + 72000 - 0 + taipeiOffsetSec := by
  obtain ⟨hnaive, haware, _⟩ := timezone_normalizer_spec
  exact ⟨hnaive ⟨739252, 0, none⟩ rfl, (haware ⟨739252, 72000, some 0⟩ 0 rfl).1⟩

/-! ## Month Label Placer (generate_heatmap.py, lines 287-299) -/

/-- Python dict assignment `week_label_map[week_idx] = label`: replace
the value of an existing key in place, append a new key at the end. -/
def dictInsert : List (Int × String) → Int → String → List (Int × String)
  | [], k, v => [(k, v)]
  | p :: rest, k, v => if p.1 = k then (k, v) :: rest else p :: dictInsert rest k v

/-- The loop body of lines 290-299: walk the days; whenever the month
of the current day differs from the tracked month, overwrite the label
table entry at the week index of that day with `str(month)` and track
the new month. -/
def placeAux (start_date : Int) : Int → List (Int × String) → List Int → List (Int × String)
  | _, acc, [] => acc
  | cur, acc, d :: ds =>
    if pyMonth d ≠ cur then
      placeAux start_date (pyMonth d)
        (dictInsert acc (get_week_num start_date d) (toString (pyMonth d))) ds
    else
      placeAux start_date cur acc ds

/-- Embedding of lines 287-299: `week_label_map = {}`,
`current_month = -1`, then the loop over the aggregated days. -/
def placeMonthLabels (start_date : Int) (days : List Int) : List (Int × String) :=
  placeAux start_date (-1) [] days

/-- The chronological sequence of (week index, label) writes the loop
of lines 290-299 performs, without dictionary collapsing. -/
def writesAux (start_date : Int) : Int → List Int → List (Int × String)
  | _, [] => []
  | cur, d :: ds =>
    if pyMonth d ≠ cur then
      (get_week_num start_date d, toString (pyMonth d)) :: writesAux start_date (pyMonth d) ds
    else
      writesAux start_date cur ds

/-- All label writes of a full run (tracked month starting at -1). -/
def monthWrites (start_date : Int) (days : List Int) : List (Int × String) :=
  writesAux start_date (-1) days

theorem lookup_cons_eq_if (k : Int) (p : Int × String) (l : List (Int × String)) :
    List.lookup k (p :: l) = if k = p.1 then some p.2 else List.lookup k l := by
  rcases p with ⟨p1, p2⟩
  rw [List.lookup_cons]
  by_cases h : k = p1
  · simp [h]
  · have hb : (k == p1) = false := by simpa using h
    simp [hb, h]

theorem lookup_dictInsert (m : List (Int × String)) (k k' : Int) (v : String) :
    List.lookup k' (dictInsert m k v) = if k' = k then some v else List.lookup k' m := by
  induction m with
  | nil =>
    simp only [dictInsert]
    rw [lookup_cons_eq_if]
  | cons p rest ih =>
    by_cases hpk : p.1 = k
    · simp only [dictInsert, if_pos hpk]
      rw [lookup_cons_eq_if, lookup_cons_eq_if]
      by_cases hk : k' = k <;> simp [hk, hpk]
    · simp only [dictInsert, if_neg hpk]
      rw [lookup_cons_eq_if, ih, lookup_cons_eq_if]
      by_cases hk1 : k' = p.1
      · have hk2 : ¬ k' = k := fun h => hpk (hk1 ▸ h)
        simp [hk1, hk2, hpk]
      · simp [hk1]

theorem mem_keys_dictInsert (m : List (Int × String)) (k a : Int) (v : String) :
    a ∈ (dictInsert m k v).map Prod.fst ↔ a ∈ m.map Prod.fst ∨ a = k := by
  induction m with
  | nil => simp [dictInsert]
  | cons p rest ih =>
    by_cases hpk : p.1 = k
    · simp only [dictInsert, if_pos hpk, List.map_cons, List.mem_cons]
      rw [← hpk]
      tauto
    · simp only [dictInsert, if_neg hpk, List.map_cons, List.mem_cons, ih]
      tauto

theorem keys_nodup_dictInsert (m : List (Int × String)) (k : Int) (v : String)
    (h : (m.map Prod.fst).Nodup) : ((dictInsert m k v).map Prod.fst).Nodup := by
  induction m with
  | nil => simp [dictInsert]
  | cons p rest ih =>
    rw [List.map_cons, List.nodup_cons] at h
    by_cases hpk : p.1 = k
    · simp only [dictInsert, if_pos hpk, List.map_cons, List.nodup_cons]
      exact ⟨hpk ▸ h.1, h.2⟩
    · simp only [dictInsert, if_neg hpk, List.map_cons, List.nodup_cons]
      refine ⟨?_, ih h.2⟩
      rw [mem_keys_dictInsert]
      rintro (hmem | heq)
      · exact h.1 hmem
      · exact hpk heq

theorem placeAux_eq_foldl (start_date : Int) (ds : List Int) :
    ∀ (cur : Int) (acc : List (Int × String)),
      placeAux start_date cur acc ds
        = (writesAux start_date cur ds).foldl (fun m p => dictInsert m p.1 p.2) acc := by
  induction ds with
  | nil => intro cur acc; rfl
  | cons d t ih =>
    intro cur acc
    by_cases h : pyMonth d ≠ cur
    · simp only [placeAux, writesAux, if_pos h, List.foldl_cons]
      exact ih _ _
    · simp only [placeAux, writesAux, if_neg h]
      exact ih _ _

theorem lookup_append_or (k : Int) (l₁ l₂ : List (Int × String)) :
    List.lookup k (l₁ ++ l₂) = (List.lookup k l₁).or (List.lookup k l₂) := by
  induction l₁ with
  | nil => simp
  | cons p t ih =>
    rw [List.cons_append, lookup_cons_eq_if, lookup_cons_eq_if]
    by_cases h : k = p.1
    · simp [h]
    · simp [h, ih]

theorem lookup_foldl_dictInsert (k : Int) (ws : List (Int × String)) :
    ∀ acc : List (Int × String),
      List.lookup k (ws.foldl (fun m p => dictInsert m p.1 p.2) acc)
        = (List.lookup k ws.reverse).or (List.lookup k acc) := by
  induction ws with
  | nil => intro acc; simp
  | cons p t ih =>
    intro acc
    rw [List.foldl_cons, ih, List.reverse_cons, lookup_append_or, Option.or_assoc,
        lookup_dictInsert]
    congr 1
    rw [lookup_cons_eq_if]
    by_cases h : k = p.1 <;> simp [h]

theorem keys_nodup_foldl (ws : List (Int × String)) :
    ∀ acc : List (Int × String), (acc.map Prod.fst).Nodup →
      ((ws.foldl (fun m p => dictInsert m p.1 p.2) acc).map Prod.fst).Nodup := by
  induction ws with
  | nil => intro acc h; exact h
  | cons p t ih =>
    intro acc h
    rw [List.foldl_cons]
    exact ih _ (keys_nodup_dictInsert _ _ _ h)

/-- C4: walking any ascending day sequence, the Month Label Placer
produces a table whose week-index keys are pairwise distinct (at most
one entry per week index), and whose entry at a week index `w` is
exactly the chronologically last label written at `w` (first match in
the reversed write sequence): last write wins.  Concretely, for the
window 2024-12-30 .. 2025-01-03 both December (month change at the
window start) and January (month boundary) write into week 0, and the
later month January is the label retained. -/
theorem month_label_placer_spec (start_date : Int) (days : List Int) :
    ((placeMonthLabels start_date days).map Prod.fst).Nodup
  ∧ (∀ w : Int, List.lookup w (placeMonthLabels start_date days)
       = List.lookup w (monthWrites start_date days).reverse)
  ∧ placeMonthLabels (daysFromCivil 2024 12 30)
      (dateRange (daysFromCivil 2024 12 30) (daysFromCivil 2025 1 3)) = [(0, "1")]
  ∧ monthWrites (daysFromCivil 2024 12 30)
      (dateRange (daysFromCivil 2024 12 30) (daysFromCivil 2025 1 3))
      = [(0, "12"), (0, "1")] := by
  refine ⟨?_, ?_, by decide, by decide⟩
  · rw [placeMonthLabels, placeAux_eq_foldl]
    exact keys_nodup_foldl _ _ (by simp)
  · intro w
    rw [placeMonthLabels, placeAux_eq_foldl, lookup_foldl_dictInsert, monthWrites]
    simp

/-! ## Record Ingestor and date/numeric Property Extractor
(generate_heatmap.py, lines 89-128) -/

/-- The payload of a date-typed property: a `start` timestamp string
that may be absent. -/
structure DateObject where
  start : Option String
deriving DecidableEq

/-- A mention inside a title / rich_text content item; `dateStart`
models `mention.get("date", \x7b\x7d).get("start")`. -/
structure MentionObject where
  dateStart : Option String
deriving DecidableEq

/-- One entry of a title or rich_text content list; `mention = none`
models a missing or empty (falsy) mention object. -/
structure ContentItem where
  mention : Option MentionObject
deriving DecidableEq

/-- The date property of a page as the extraction code reads it: the
type discriminator plus the fields the three extraction cases look at.
An absent property (`props.get(DATE_PROP, \x7b\x7d)`) is the record with
type "" and all payloads empty. -/
structure DatePropValue where
  type : String
  date : Option DateObject
  created_time : Option String
  title : List ContentItem
  rich_text : List ContentItem
deriving DecidableEq

/-- One page record, reduced to the two properties the ingestor reads:
the date property and `props.get(DURATION_PROP, \x7b\x7d).get("rollup",
\x7b\x7d).get("number")`. -/
structure PageRecord where
  dateProp : DatePropValue
  rollupNumber : Option ℚ
deriving DecidableEq

/-- Python string truthiness on an optional string: `None` and `""` are
falsy; a truthy value is kept. -/
def truthyStr (s : Option String) : Option String :=
  match s with
  | none => none
  | some s => if s = "" then none else some s

/-- Embedding of the date extraction of lines 92-118: case A reads
`date.start` when the type is "date"; if the result so far is falsy,
case B reads `created_time` when the type is "created_time"; if still
falsy, case C reads the first content item of `title` (or of
`rich_text` when `title` is empty) and takes its mention date start;
a final falsy result means no value. -/
def extractDateStr (p : DatePropValue) : Option String :=
  let a : Option String :=
    if p.type = "date" then
      match p.date with
      | some o => o.start
      | none => none
    else none
  let b : Option String :=
    match truthyStr a with
    | some s => some s
    | none => if p.type = "created_time" then p.created_time else none
  let c : Option String :=
    match truthyStr b with
    | some s => some s
    | none =>
      match (if p.title ≠ [] then p.title else p.rich_text) with
      | [] => none
      | item :: _ =>
        match item.mention with
        | some m => m.dateStart
        | none => none
  truthyStr c

/-- Embedding of lines 120-128: a record contributes the pair
`(date_str, float(duration_num))` exactly when the extracted date is
truthy and the rollup number is present; otherwise nothing. -/
def extractRecord (p : PageRecord) : Option (String × ℚ) :=
  match extractDateStr p.dateProp, p.rollupNumber with
  | some s, some n => some (s, n)
  | _, _ => none

/-- Embedding of the pagination loop accumulation (lines 48, 89-128):
each fetched page appends its surviving records to the running list. -/
def ingestPages (pages : List (List PageRecord)) : List (String × ℚ) :=
  pages.foldl (fun acc page => acc ++ page.filterMap extractRecord) []

theorem ingestPages_aux (pages : List (List PageRecord)) :
    ∀ acc : List (String × ℚ),
      pages.foldl (fun acc page => acc ++ page.filterMap extractRecord) acc
        = acc ++ (pages.map (fun page => page.filterMap extractRecord)).flatten := by
  induction pages with
  | nil => intro acc; simp
  | cons page t ih =>
    intro acc
    rw [List.foldl_cons, ih, List.map_cons, List.flatten_cons, List.append_assoc]

/-- C6: a page record contributes a (date, value) pair if and only if
date extraction yields a (truthy) value and the rollup number is
present (a present rollup number is a finite rational in this model);
in every other case the record contributes nothing: the surviving
records of a page are unchanged when a non-contributing record is
removed, and the fetch loop simply concatenates the surviving records
of all pages in order. -/
theorem record_ingestor_spec :
    (∀ p : PageRecord,
       (∃ s v, extractRecord p = some (s, v))
         ↔ ((∃ s, extractDateStr p.dateProp = some s) ∧ (∃ v, p.rollupNumber = some v)))
  ∧ (∀ (p : PageRecord) (s : String) (v : ℚ), extractRecord p = some (s, v) →
       extractDateStr p.dateProp = some s ∧ p.rollupNumber = some v)
  ∧ (∀ (p : PageRecord) (pre post : List PageRecord), extractRecord p = none →
       (pre ++ p :: post).filterMap extractRecord = (pre ++ post).filterMap extractRecord)
  ∧ (∀ pages : List (List PageRecord),
       ingestPages pages = (pages.map (fun page => page.filterMap extractRecord)).flatten) := by
  refine ⟨?_, ?_, ?_, ?_⟩
  · intro p
    unfold extractRecord
    constructor
    · rintro ⟨s, v, h⟩
      rcases hd : extractDateStr p.dateProp with _ | s' <;>
        rcases hr : p.rollupNumber with _ | v' <;> rw [hd, hr] at h
      · exact absurd h (by simp)
      · exact absurd h (by simp)
      · exact absurd h (by simp)
      · exact ⟨⟨s', rfl⟩, ⟨v', rfl⟩⟩
    · rintro ⟨⟨s, hs⟩, ⟨v, hv⟩⟩
      rw [hs, hv]
      exact ⟨s, v, rfl⟩
  · intro p s v h
    unfold extractRecord at h
    rcases hd : extractDateStr p.dateProp with _ | s' <;>
      rcases hr : p.rollupNumber with _ | v' <;> rw [hd, hr] at h
    · exact absurd h (by simp)
    · exact absurd h (by simp)
    · exact absurd h (by simp)
    · simp only [Option.some.injEq, Prod.mk.injEq] at h
      obtain ⟨h1, h2⟩ := h
      subst h1
      subst h2
      exact ⟨rfl, rfl⟩
  · intro p pre post h
    rw [List.filterMap_append, List.filterMap_append, List.filterMap_cons, h]
  · intro pages
    rw [ingestPages, ingestPages_aux]
    simp

/-- C6 witness: a record with a date and a rollup number survives with
its pair, and a record lacking the rollup number is skipped: the page
yields the same output without it. -/
theorem record_ingestor_spec_witness :
    extractRecord ⟨⟨"date", some ⟨some "2025-01-02"⟩, none, [], []⟩, some 5⟩
      = some ("2025-01-02", 5)
  ∧ (([] : List PageRecord)
        ++ (⟨⟨"created_time", none, some "2025-01-01T12:00:00Z", [], []⟩, none⟩ : PageRecord)
        :: ([⟨⟨"date", some ⟨some "2025-01-02"⟩, none, [], []⟩, some 5⟩] : List PageRecord)).filterMap
        extractRecord
      = (([] : List PageRecord)
        ++ ([⟨⟨"date", some ⟨some "2025-01-02"⟩, none, [], []⟩, some 5⟩] : List PageRecord)).filterMap
        extractRecord := by
  refine ⟨by decide, ?_⟩
  exact record_ingestor_spec.2.2.1
    ⟨⟨"created_time", none, some "2025-01-01T12:00:00Z", [], []⟩, none⟩
    [] [⟨⟨"date", some ⟨some "2025-01-02"⟩, none, [], []⟩, some 5⟩] (by decide)

/-! ## Tag Frequency Counter (generate_wordcloud.py, lines 82-124) -/

/-- Python single-character `str.replace("，", ",")` at the character
level (both arguments of the source call are single characters). -/
def pyReplaceComma (s : List Char) : List Char :=
  s.map (fun c => if c = '，' then ',' else c)

/-- Python `str.split(sep)` for a one-character separator: splitting an
empty string yields `[""]`, and every separator occurrence opens a new
(possibly empty) field. -/
def pySplit (sep : Char) : List Char → List (List Char)
  | [] => [[]]
  | c :: cs =>
    match pySplit sep cs with
    | [] => [[]]
    | g :: gs => if c = sep then [] :: g :: gs else (c :: g) :: gs

/-- Python `str.strip()`: drop leading and trailing whitespace. -/
def pyStrip (s : List Char) : List Char :=
  ((s.dropWhile Char.isWhitespace).reverse.dropWhile Char.isWhitespace).reverse

/-- Embedding of the delimited-text tag splitting of lines 104 and 111:
`[x.strip() for x in text.replace("，", ",").split(",") if x.strip()]`
(replace the fullwidth comma by the ASCII comma, split on the ASCII
comma, strip each field, drop falsy i.e. empty fields). -/
def splitTags (text : String) : List String :=
  (((pySplit ',' (pyReplaceComma text.data)).map
      (fun g => String.mk (pyStrip g))).filter (fun s => s ≠ ""))

/-- The payload object of a select-typed tag property; `name = none`
models a payload object that lacks a name field (the object itself is
non-empty, hence truthy, because the API payload carries other fields
such as id and color). -/
structure SelectObject where
  name : Option String
deriving DecidableEq

/-- A tag property as the extraction code reads it (lines 89-111):
the type discriminator selects one representation; `otherType` stands
for any unmatched discriminator, which contributes nothing. -/
inductive TagPropValue where
  | multi_select (options : List String)
  | select (payload : Option SelectObject)
  | rich_text (plainTexts : List String)
  | formula (ftype : String) (fstring : Option String)
  | otherType
deriving DecidableEq

/-- Embedding of lines 91-111: the per-record tag name list.  Elements
are `Option String` because `select_obj.get("name")` can put the Python
value `None` into the list. -/
def extractTags : TagPropValue → List (Option String)
  | .multi_select options => options.map some
  | .select payload =>
    match payload with
    | some obj => [obj.name]
    | none => []
  | .rich_text plainTexts =>
    match plainTexts with
    | [] => []
    | _ :: _ => (splitTags (String.join plainTexts)).map some
  | .formula ftype fstring =>
    if ftype = "string" then (splitTags (fstring.getD "")).map some else []
  | .otherType => []

/-- Embedding of the accumulation loop (lines 63, 82-113): per page
record, a falsy (absent) tag property is skipped, otherwise the
extracted names extend `tag_list`. -/
def collectTags (recs : List (Option TagPropValue)) : List (Option String) :=
  recs.foldl
    (fun acc r =>
      match r with
      | none => acc
      | some p => acc ++ extractTags p) []

/-- Embedding of `collections.Counter(tag_list)` (line 124): the tag
frequency table as the function mapping a tag to its number of
occurrences. -/
def Counter (tags : List (Option String)) : Option String → ℕ :=
  fun t => tags.count t

theorem beq_instances_eq (x a : Option String) :
    (@BEq.beq _ Option.instBEq x a) = (@BEq.beq _ instBEqOfDecidableEq x a) := by
  by_cases h : x = a <;> simp [h]

theorem count_instances_eq (t : Option String) (l : List (Option String)) :
    @List.count _ Option.instBEq t l = @List.count _ instBEqOfDecidableEq t l := by
  induction l with
  | nil => rfl
  | cons a l ih =>
    rw [@List.count_cons _ Option.instBEq, @List.count_cons _ instBEqOfDecidableEq,
        ih, beq_instances_eq]

/-- C7: the Tag Frequency Counter gives each tag a count equal to its
number of occurrences in the flattened tag list, and the counts summed
over the distinct tags equal the total number of tag occurrences;
the tags ["A", "B", "A"] yield counts A = 2 and B = 1, and the
delimited text "A, B，C" splits to ["A", "B", "C"], the same result as
with the ASCII separator everywhere. -/
theorem tag_frequency_counter_spec :
    (∀ (tags : List (Option String)) (t : Option String), Counter tags t = tags.count t)
  ∧ (∀ tags : List (Option String),
       (tags.dedup.map (fun t => Counter tags t)).sum = tags.length)
  ∧ Counter [some "A", some "B", some "A"] (some "A") = 2
  ∧ Counter [some "A", some "B", some "A"] (some "B") = 1
  ∧ Counter [some "A", some "B", some "A"] (some "C") = 0
  ∧ splitTags "A, B，C" = ["A", "B", "C"]
  ∧ splitTags "A, B, C" = ["A", "B", "C"]
  ∧ splitTags "A,B,C" = ["A", "B", "C"]
  ∧ splitTags "A, B，C" = splitTags "A, B, C" := by
  refine ⟨fun _ _ => rfl, ?_, by decide, by decide, by decide,
          by decide, by decide, by decide, by decide⟩
  intro tags
  simp only [Counter]
  have h : (fun t => @List.count _ Option.instBEq t tags)
      = (fun t => @List.count _ instBEqOfDecidableEq t tags) := by
    funext t
    exact count_instances_eq t tags
  rw [h]
  exact List.sum_map_count_dedup_eq_length tags

/-- C10: a select-typed tag property whose payload object is present
but lacks a name field contributes the single entry `None` to the
flattened tag list rather than contributing nothing, so the tag list of
a record carrying it is non-empty and the frequency table counts the
`None` key once. -/
theorem select_missing_name_spec :
    extractTags (.select (some ⟨none⟩)) = [none]
  ∧ collectTags [some (.select (some ⟨none⟩))] = [none]
  ∧ collectTags [some (.select (some ⟨none⟩))] ≠ []
  ∧ Counter (collectTags [some (.select (some ⟨none⟩))]) none = 1 := by
  refine ⟨by decide, by decide, by decide, by decide⟩

/-! ## EmptyResultSet handling (generate_heatmap.py lines 134-140,
generate_wordcloud.py lines 119-121) -/

/-- Outcome of the post-fetch stage of a pipeline run: the process exit
code and the artifact paths written during the run. -/
structure RunResult where
  exitCode : ℕ
  artifactsWritten : List String
deriving DecidableEq

/-- Embedding of generate_heatmap.py after the fetch loop: when no
records survived, print and `sys.exit(0)` before any output is created
(lines 134-140); otherwise the run proceeds and writes the two heatmap
artifacts (lines 310-383), exiting normally. -/
def heatmapAfterFetch (records : List (String × ℚ)) : RunResult :=
  if records.isEmpty then ⟨0, []⟩
  else ⟨0, ["public/heatmap.png", "public/heatmap.html"]⟩

/-- Embedding of generate_wordcloud.py after the fetch loop: when the
flattened tag list is empty, print and `sys.exit(0)` before any output
is created (lines 119-121); otherwise the run proceeds and writes the
two word-cloud artifacts (lines 180-219), exiting normally. -/
def wordcloudAfterFetch (tag_list : List (Option String)) : RunResult :=
  if tag_list.isEmpty then ⟨0, []⟩
  else ⟨0, ["public/word_cloud.png", "public/word_cloud.html"]⟩

/-- Effect of a run on a file-system state mapping each artifact path
to a version count: each written path is bumped, all others are kept. -/
def applyArtifactWrites (fs : String → ℕ) (r : RunResult) : String → ℕ :=
  fun path => if r.artifactsWritten.contains path then fs path + 1 else fs path

/-- C8: with an empty surviving record set (respectively an empty tag
list), either pipeline exits successfully with exit code 0 and writes
no artifact, so every pre-existing artifact state is left untouched;
a non-empty input leads to artifacts being written. -/
theorem empty_result_set_spec :
    heatmapAfterFetch [] = ⟨0, []⟩
  ∧ wordcloudAfterFetch [] = ⟨0, []⟩
  ∧ (∀ fs : String → ℕ, applyArtifactWrites fs (heatmapAfterFetch []) = fs)
  ∧ (∀ fs : String → ℕ, applyArtifactWrites fs (wordcloudAfterFetch []) = fs)
  ∧ (∀ records, (heatmapAfterFetch records).exitCode = 0)
  ∧ (∀ tag_list, (wordcloudAfterFetch tag_list).exitCode = 0) := by
  refine ⟨rfl, rfl, ?_, ?_, ?_, ?_⟩
  · intro fs
    funext path
    rfl
  · intro fs
    funext path
    rfl
  · intro records
    unfold heatmapAfterFetch
    split <;> rfl
  · intro tag_list
    unfold wordcloudAfterFetch
    split <;> rfl

/-! ## Configuration validation (generate_heatmap.py lines 17-35,
generate_wordcloud.py lines 43-54) -/

/-- Python falsiness of `os.environ.get(name)`: an unset variable
(`None`) and an empty string are both falsy. -/
def pyFalsyEnv (s : Option String) : Bool :=
  match s with
  | none => true
  | some s => s = ""

/-- Startup outcome of a pipeline: `exitCode = some c` means the
process exits with code `c` during configuration validation;
`fetchStarted` records whether the query loop was ever entered. -/
structure StartupResult where
  exitCode : Option ℕ
  fetchStarted : Bool
deriving DecidableEq

/-- Embedding of generate_heatmap.py lines 17-55: read the four
environment bindings, exit with code 1 if the date or duration property
name is falsy, then exit with code 1 if the token or the data-source id
is falsy, and only afterwards start fetching. -/
def heatmapStartup (env : String → Option String) : StartupResult :=
  let DATE_PROP := env "NOTION_DATE_PROP"
  let DURATION_PROP := env "NOTION_DURATION_PROP"
  let NOTION_TOKEN := env "NOTION_TOKEN"
  let NOTION_DATASOURCE_ID := env "NOTION_DATASOURCE_ID"
  if pyFalsyEnv DATE_PROP || pyFalsyEnv DURATION_PROP then ⟨some 1, false⟩
  else if pyFalsyEnv NOTION_TOKEN || pyFalsyEnv NOTION_DATASOURCE_ID then ⟨some 1, false⟩
  else ⟨none, true⟩

/-- Embedding of generate_wordcloud.py lines 43-69: read the bindings,
with `TAGS_PROP` defaulting to "Tags" when unset; exit with code 1 if
the token or the data-source id is falsy, then exit with code 1 if the
(defaulted) tags property name is empty, and only afterwards start
fetching. -/
def wordcloudStartup (env : String → Option String) : StartupResult :=
  let NOTION_TOKEN := env "NOTION_TOKEN"
  let NOTION_DATASOURCE_ID := env "NOTION_YEAR_DATASOURCE_ID"
  let TAGS_PROP := (env "TAGS_PROP").getD "Tags"
  if pyFalsyEnv NOTION_TOKEN || pyFalsyEnv NOTION_DATASOURCE_ID then ⟨some 1, false⟩
  else if TAGS_PROP = "" then ⟨some 1, false⟩
  else ⟨none, true⟩

/-- A concrete environment for C9: every binding is set to a non-empty
value except `TAGS_PROP`, which is unset (missing). -/
def envTagsUnset : String → Option String :=
  fun name => if name = "TAGS_PROP" then none else some "x"

/-- C9 counterexample: the categorical property-name binding
`TAGS_PROP` is missing from the concrete environment `envTagsUnset`
(its lookup is falsy), yet the word-cloud pipeline does not report a
configuration error: startup exits with no error code and the fetch
loop is entered.  This contradicts the claim that every missing
property-name binding is fatal before any fetch: the code substitutes
the default "Tags" instead. -/
theorem config_missing_tags_prop_counterexample :
    pyFalsyEnv (envTagsUnset "TAGS_PROP") = true
  ∧ (wordcloudStartup envTagsUnset).exitCode = none
  ∧ (wordcloudStartup envTagsUnset).fetchStarted = true := by
  refine ⟨by decide, by decide, by decide⟩

/-- C9 (amended): for the bindings without a default -- the heatmap
date, duration, token and data-source bindings and the word-cloud token
and data-source bindings -- a missing or empty value makes the program
exit with the nonzero code 1 before any fetch is started; the
word-cloud categorical binding `TAGS_PROP` defaults to "Tags" when
missing and is fatal in the same way only when it is set to the empty
string. -/
theorem config_validation_spec :
    (∀ env, pyFalsyEnv (env "NOTION_DATE_PROP") = true → heatmapStartup env = ⟨some 1, false⟩)
  ∧ (∀ env, pyFalsyEnv (env "NOTION_DURATION_PROP") = true → heatmapStartup env = ⟨some 1, false⟩)
  ∧ (∀ env, pyFalsyEnv (env "NOTION_TOKEN") = true → heatmapStartup env = ⟨some 1, false⟩)
  ∧ (∀ env, pyFalsyEnv (env "NOTION_DATASOURCE_ID") = true → heatmapStartup env = ⟨some 1, false⟩)
  ∧ (∀ env, pyFalsyEnv (env "NOTION_TOKEN") = true → wordcloudStartup env = ⟨some 1, false⟩)
  ∧ (∀ env, pyFalsyEnv (env "NOTION_YEAR_DATASOURCE_ID") = true →
       wordcloudStartup env = ⟨some 1, false⟩)
  ∧ (∀ env, env "TAGS_PROP" = some "" → wordcloudStartup env = ⟨some 1, false⟩)
  ∧ (∀ env, (env "TAGS_PROP") = none → (wordcloudStartup env).exitCode ≠ none →
       pyFalsyEnv (env "NOTION_TOKEN") = true
         ∨ pyFalsyEnv (env "NOTION_YEAR_DATASOURCE_ID") = true)
  ∧ (∀ env c, (heatmapStartup env).exitCode = some c → c ≠ 0)
  ∧ (∀ env c, (wordcloudStartup env).exitCode = some c → c ≠ 0)
  ∧ (∀ env, (heatmapStartup env).exitCode ≠ none → (heatmapStartup env).fetchStarted = false)
  ∧ (∀ env, (wordcloudStartup env).exitCode ≠ none →
       (wordcloudStartup env).fetchStarted = false) := by
  refine ⟨?_, ?_, ?_, ?_, ?_, ?_, ?_, ?_, ?_, ?_, ?_, ?_⟩
  · intro env h
    simp [heatmapStartup, h]
  · intro env h
    simp [heatmapStartup, h]
  · intro env h
    simp only [heatmapStartup]
    split_ifs with h1 h2
    · rfl
    · rfl
    · simp [h] at h2
  · intro env h
    simp only [heatmapStartup]
    split_ifs with h1 h2
    · rfl
    · rfl
    · simp [h] at h2
  · intro env h
    simp [wordcloudStartup, h]
  · intro env h
    simp [wordcloudStartup, h]
  · intro env h
    simp only [wordcloudStartup]
    split_ifs with h1 h2
    · rfl
    · rfl
    · simp [h] at h2
  · intro env hnone h
    by_cases h1 : pyFalsyEnv (env "NOTION_TOKEN") = true
    · exact Or.inl h1
    · by_cases h2 : pyFalsyEnv (env "NOTION_YEAR_DATASOURCE_ID") = true
      · exact Or.inr h2
      · exfalso
        rw [Bool.not_eq_true] at h1 h2
        simp [wordcloudStartup, h1, h2, hnone] at h
  · intro env c h
    simp only [heatmapStartup] at h
    split_ifs at h
    · have h1 : (1 : ℕ) = c := by simpa using h
      omega
    · have h1 : (1 : ℕ) = c := by simpa using h
      omega
  · intro env c h
    simp only [wordcloudStartup] at h
    split_ifs at h
    · have h1 : (1 : ℕ) = c := by simpa using h
      omega
    · have h1 : (1 : ℕ) = c := by simpa using h
      omega
  · intro env h
    simp only [heatmapStartup] at h ⊢
    split_ifs at h ⊢
    · rfl
    · rfl
    · exact absurd rfl h
  · intro env h
    simp only [wordcloudStartup] at h ⊢
    split_ifs at h ⊢
    · rfl
    · rfl
    · exact absurd rfl h

/-- C9 witness: the amended validation applied to concrete
environments through the theorem. -/
theorem config_validation_spec_witness :
    heatmapStartup (fun _ => none) = ⟨some 1, false⟩
  ∧ wordcloudStartup (fun _ => some "") = ⟨some 1, false⟩ := by
  exact ⟨config_validation_spec.1 (fun _ => none) (by decide),
         config_validation_spec.2.2.2.2.1 (fun _ => some "") (by decide)⟩
